import Mathlib

/-!
Shallow embedding of the polymarket-ingestor pipeline (Go) in Lean 4.

Each definition mirrors one function of the source repository:
* `utils/dto.go`        — `ErrSkipMessage`, `IncomingMessage`,
  `ActivityTradePayload`, `ParseActivityTrade`
* `internal/kafka/consumer.go` (producer part) — `TradeMessage`, `ProduceTrade`
* `internal/polymarket.go`  — `WebSocketClient.Close`, the `Run` receive loop's
  per-frame handling, and the ping/close task interleavings
* `internal/questdb.go`     — `TradeWriter`: `NewTradeWriter`,
  `NewTradeWriterHTTP`, `Write`, `WriteBatch`, `Flush`, `Close`

Bytes are `List Nat` (one Nat per byte), Go `int64`/`int` are `Int`,
Go `float64` fields are carried as `Float` (no claim inspects their
arithmetic).  Calls into `encoding/json` are modelled by an explicit
decoder oracle (`JsonModel`); the only law imposed on the oracle is the
documented behaviour of `json.Unmarshal` on empty/nil input (it fails
with a syntax error), which the source relies on when an envelope has no
payload field.  Goroutine interleavings are modelled as explicit
schedules over atomic steps, where each mutex-protected block of the
source is one atomic step.
-/

/- ### Go error values (`error`, `fmt.Errorf`, `errors.Is`) -/

/-- A Go `error` value as used by this repository: the dedicated sentinel
`ErrSkipMessage` (a distinct identity, as in Go), a plain error value with a
message (`fmt.Errorf` without `%w`, or an error from a library call), or a
wrapping error (`fmt.Errorf("...: %w", err)`). -/
inductive GoError where
  | errSkipMessage : GoError
  | errorf (msg : String) : GoError
  | wrap (context : String) (inner : GoError) : GoError
deriving DecidableEq, Repr

/-- `errors.Is`: identity with the target, or identity somewhere down the
unwrap chain produced by `%w` wrapping (only `wrap` has an `Unwrap`). -/
def errorsIs : GoError → GoError → Bool
  | .errSkipMessage, target => .errSkipMessage == target
  | .errorf s, target => GoError.errorf s == target
  | .wrap c inner, target => (GoError.wrap c inner == target) || errorsIs inner target

namespace utils

/-- `var ErrSkipMessage = fmt.Errorf("skip message")` — the sentinel returned
when a message should be skipped (not a trade).  Identity is what matters in
Go, so it is a dedicated constructor. -/
def ErrSkipMessage : GoError := .errSkipMessage

/-- Topic constant from `utils/dto.go`. -/
def TopicActivity : String := "activity"

/-- Type constant from `utils/dto.go`. -/
def TypeTrades : String := "trades"

/-- `IncomingMessage` — the wrapper (envelope) structure for WebSocket
messages.  `payload` is a `json.RawMessage`: `none` models a nil raw message
(the JSON had no `payload` field at all). -/
structure IncomingMessage where
  connectionId : String := ""
  payload : Option (List Nat) := none
  timestamp : Int := 0
  topic : String := ""
  type' : String := ""
deriving DecidableEq, Repr

/-- `ActivityTradePayload` — a trade from the activity topic.  Defaults are
the Go zero values. -/
structure ActivityTradePayload where
  id : String := ""
  market : String := ""
  asset : String := ""
  side : String := ""
  price : Float := 0
  size : Float := 0
  fee : Float := 0
  timestamp : Int := 0
  transactionHash : String := ""
  maker : String := ""
  taker : String := ""
  makerOrderID : String := ""
  takerOrderID : String := ""
  conditionID : String := ""
  outcomeIndex : Int := 0
  questionID : String := ""
  marketSlug : String := ""
  eventSlug : String := ""
  eventTitle : String := ""
  outcomeTitle : String := ""
  proxyWalletAddress : String := ""
  name : String := ""
  pseudonym : String := ""
  bio : String := ""
  icon : String := ""
  profileImage : String := ""

/-- Model of `encoding/json.Unmarshal` for the two target shapes used by
`ParseActivityTrade`.  The decoders are oracle functions; the single law
`tradeUnmarshal_empty` is the documented behaviour of `json.Unmarshal` on
empty (or nil) input: it fails with "unexpected end of JSON input".  The
source relies on this when an envelope carries no payload field (the nil
`json.RawMessage` is passed straight to `json.Unmarshal`). -/
structure JsonModel where
  envUnmarshal : List Nat → Except String IncomingMessage
  tradeUnmarshal : List Nat → Except String ActivityTradePayload
  tradeUnmarshal_empty : tradeUnmarshal [] = .error "unexpected end of JSON input"

/-- Byte value of the JSON object start marker (the opening curly bracket). -/
def jsonObjectStart : Nat := 123

/-- `ParseActivityTrade` from `utils/dto.go`: parses the full WebSocket
message and extracts the trade payload.  Empty message → skip; first byte not
the object start marker → skip; envelope decode failure → wrapped parse
error; topic/type mismatch → skip; payload decode failure → wrapped parse
error; otherwise the decoded trade. -/
def ParseActivityTrade (J : JsonModel) (message : List Nat) :
    Except GoError ActivityTradePayload :=
  if message.isEmpty then .error ErrSkipMessage
  else if message.headD 0 ≠ jsonObjectStart then .error ErrSkipMessage
  else
    match J.envUnmarshal message with
    | .error e => .error (.wrap "failed to parse incoming message" (.errorf e))
    | .ok incoming =>
      if incoming.topic ≠ TopicActivity ∨ incoming.type' ≠ TypeTrades then
        .error ErrSkipMessage
      else
        match J.tradeUnmarshal (incoming.payload.getD []) with
        | .error e =>
            .error (.wrap "failed to parse activity trade payload" (.errorf e))
        | .ok trade => .ok trade

end utils

/- ### Kafka producer (`internal/kafka/consumer.go`, producer part) -/

namespace kafka

/-- The flat wire message shape produced to the broker topic. -/
structure TradeMessage where
  side : String
  outcome : String
  eventSlug : String
  slug : String
  conditionId : String
  transactionHash : String
  proxyWallet : String
  questionId : String
  price : Float
  size : Float
  fee : Float
  timestamp : Int

/-- The field mapping performed at the top of `ProduceTrade`. -/
def tradeMessageOf (t : utils.ActivityTradePayload) : TradeMessage :=
  { side := t.side
    outcome := t.outcomeTitle
    eventSlug := t.eventSlug
    slug := t.marketSlug
    conditionId := t.conditionID
    transactionHash := t.transactionHash
    proxyWallet := t.proxyWalletAddress
    questionId := t.questionID
    price := t.price
    size := t.size
    fee := t.fee
    timestamp := t.timestamp }

/-- UTF-8 bytes of a Go string, as `[]byte(s)` produces them. -/
def strBytes (s : String) : List Nat := s.toUTF8.toList.map (fun b => b.toNat)

/-- A `kgo.Record` as far as this pipeline populates it: topic, optional key
(nil vs bytes), and the marshalled value. -/
structure KafkaRecord where
  topic : String
  key : Option (List Nat)
  value : List Nat

/-- `ProduceTrade` from the producer: nil trade → no-op (no record); marshal
failure → wrapped error; otherwise a record whose key is the transaction-hash
bytes when the hash is non-empty and unset (nil) otherwise.  `marshal` is the
`json.Marshal` oracle for the wire message shape. -/
def ProduceTrade (marshal : TradeMessage → Except String (List Nat))
    (topic : String) (trade : Option utils.ActivityTradePayload) :
    Except GoError (Option KafkaRecord) :=
  match trade with
  | none => .ok none
  | some t =>
    match marshal (tradeMessageOf t) with
    | .error e => .error (.wrap "failed to marshal trade" (.errorf e))
    | .ok value =>
      let key : Option (List Nat) :=
        if t.transactionHash ≠ "" then some (strBytes t.transactionHash)
        else none
      .ok (some { topic := topic, key := key, value := value })

end kafka

/- ### Connection Manager (`internal/polymarket.go`) -/

/-- Result of a Go computation that can panic (e.g. `close` of an
already-closed channel). -/
inductive PanicOr (α : Type) where
  | panic : PanicOr α
  | ok : α → PanicOr α
deriving DecidableEq, Repr

namespace internal

/-- The state of a `WebSocketClient` as far as `Close` observes and mutates
it: the set-once `closed` flag (`atomic.Bool`), whether the `done` channel has
been closed, the socket handle (`conn`, a nullable pointer modelled by an
identifier), and a ghost counter of how many times the socket handle has been
released (`conn.Close()` calls). -/
structure WSState where
  closed : Bool
  doneClosed : Bool
  conn : Option Nat
  socketReleases : Nat
deriving DecidableEq, Repr

namespace WebSocketClient

/-- `WebSocketClient.Close` from `internal/polymarket.go`, run to completion
in isolation: `closed.Swap(true)` returns the old value — if already true,
return immediately; otherwise close the `done` channel (a panic if it were
already closed), then under the mutex release and clear the socket handle if
non-nil. -/
def Close (st : WSState) : PanicOr WSState :=
  if st.closed then .ok st
  else
    let st1 : WSState := { st with closed := true }
    if st1.doneClosed then .panic
    else
      let st2 : WSState := { st1 with doneClosed := true }
      match st2.conn with
      | some _ =>
          .ok { st2 with conn := none, socketReleases := st2.socketReleases + 1 }
      | none => .ok st2

/-- The state an isolated successful `Close` call leaves behind. -/
def closeResult (st : WSState) : WSState :=
  if st.closed then st
  else
    match st.conn with
    | some _ =>
        { st with closed := true, doneClosed := true, conn := none,
                  socketReleases := st.socketReleases + 1 }
    | none => { st with closed := true, doneClosed := true }

/-- Program counter of one task executing `Close`: about to run the
`closed.Swap`, about to `close(done)`, about to release the handle under the
mutex, or finished. -/
inductive TPC where
  | start | doClose | doRelease | halted
deriving DecidableEq, Repr

/-- One atomic step of a task executing `Close`.  The `Swap` is one atomic
step; `close(done)` is one step (panicking on a double close); the
mutex-protected release block is one step. -/
def threadStep (pc : TPC) (st : WSState) : PanicOr (TPC × WSState) :=
  match pc with
  | .start =>
      if st.closed then .ok (.halted, { st with closed := true })
      else .ok (.doClose, { st with closed := true })
  | .doClose =>
      if st.doneClosed then .panic
      else .ok (.doRelease, { st with doneClosed := true })
  | .doRelease =>
      match st.conn with
      | some _ =>
          .ok (.halted, { st with conn := none,
                                  socketReleases := st.socketReleases + 1 })
      | none => .ok (.halted, st)
  | .halted => .ok (.halted, st)

/-- Two concurrent `Close` calls under an explicit schedule: each list entry
says which of the two tasks takes the next atomic step (`true` = first). -/
def run2 : List Bool → TPC → TPC → WSState → PanicOr (TPC × TPC × WSState)
  | [], p1, p2, st => .ok (p1, p2, st)
  | b :: rest, p1, p2, st =>
    if b then
      match threadStep p1 st with
      | .panic => .panic
      | .ok (p1', st') => run2 rest p1' p2 st'
    else
      match threadStep p2 st with
      | .panic => .panic
      | .ok (p2', st') => run2 rest p1 p2' st'

/-- The state an isolated `Close` leaves right after its `closed.Swap`. -/
def midA (st0 : WSState) : WSState := { st0 with closed := true }

/-- The state an isolated `Close` leaves right after `close(done)`. -/
def midB (st0 : WSState) : WSState :=
  { st0 with closed := true, doneClosed := true }

/-- Configurations reachable while task `p` executes the body of `Close`
(it won the swap) and task `q` has either not yet run its swap or already
returned. -/
def sideInv (st0 : WSState) (p q : TPC) (st : WSState) : Prop :=
  (p = .doClose ∧ (q = .start ∨ q = .halted) ∧ st = midA st0)
  ∨ (p = .doRelease ∧ (q = .start ∨ q = .halted) ∧ st = midB st0)
  ∨ (p = .halted ∧ (q = .start ∨ q = .halted) ∧ st = closeResult st0)

/-- Invariant of two concurrent `Close` calls started from `st0`. -/
def inv2 (st0 : WSState) (p1 p2 : TPC) (st : WSState) : Prop :=
  (st0.closed = true ∧ (p1 = .start ∨ p1 = .halted)
      ∧ (p2 = .start ∨ p2 = .halted) ∧ st = st0)
  ∨ (st0.closed = false ∧
      ((p1 = .start ∧ p2 = .start ∧ st = st0)
        ∨ sideInv st0 p1 p2 st ∨ sideInv st0 p2 p1 st))

end WebSocketClient

/-- UTF-8 bytes of the literal keepalive-reply token `"pong"`. -/
def pongBytes : List Nat := [112, 111, 110, 103]

/-- Gorilla websocket message type constants: `TextMessage = 1`,
`BinaryMessage = 2`. -/
def TextMessage : Nat := 1

/-- Gorilla websocket `BinaryMessage` constant. -/
def BinaryMessage : Nat := 2

/-- One iteration of the `Run` receive loop after a successful
`ReadMessage`, from `internal/polymarket.go`: the message type returned by
`ReadMessage` is ignored (bound to `_`); if the raw bytes equal `"pong"` the
frame is consumed silently; otherwise the unmodified bytes are handed to the
registered callback when one is set.  The result is what the callback
receives (`none` = callback not invoked). -/
def handleFrame (cbPresent : Bool) (messageType : Nat) (message : List Nat) :
    Option (List Nat) :=
  let _ := messageType
  if message = pongBytes then none
  else if cbPresent then some message else none

/-- Shared state of the Connection Manager's tasks (keepalive loop,
subscribe/unsubscribe, close), with ghost monitor fields recording the
trace properties the spec talks about: `closedSeen` (the `closed` flag has
transitioned to true), `clearedSeen` (`Close` has cleared the socket handle),
and whether a socket write was attempted after each of those two moments. -/
structure CMState where
  closed : Bool
  doneClosed : Bool
  conn : Option Nat
  closePc : Nat
  pingAlive : Bool
  closedSeen : Bool
  clearedSeen : Bool
  writeAfterClosed : Bool
  writeAfterCleared : Bool
deriving DecidableEq, Repr

/-- Atomic actions of the Connection Manager's tasks.  Each mutex-protected
block of the source is one atomic action; `closeSwap`, `closeDone` and
`closeClear` are the three successive steps of `Close`. -/
inductive CMAct where
  | pingTick | pingExit | closeSwap | closeDone | closeClear | subscribeWrite
deriving DecidableEq, Repr

/-- Record that a write was attempted on the socket handle just now. -/
def noteWrite (st : CMState) : CMState :=
  { st with writeAfterClosed := st.writeAfterClosed || st.closedSeen,
            writeAfterCleared := st.writeAfterCleared || st.clearedSeen }

/-- One atomic step.  `pingTick`: the keepalive loop, under the mutex, writes
a ping iff the handle is non-nil.  `pingExit`: the loop observes the closed
`done` channel and returns.  `closeSwap`/`closeDone`/`closeClear`: the three
steps of `Close` (swap the flag, close `done`, then under the mutex release
and clear the handle).  `subscribeWrite`: a subscribe/unsubscribe text-frame
write under the mutex (these write iff the handle is non-nil; on a nil handle
the write never reaches a socket).  Disabled actions leave the state
unchanged. -/
def cmStep (st : CMState) : CMAct → CMState
  | .pingTick =>
      if st.pingAlive then
        match st.conn with
        | some _ => noteWrite st
        | none => st
      else st
  | .pingExit => if st.doneClosed then { st with pingAlive := false } else st
  | .closeSwap =>
      if st.closePc = 0 then
        if st.closed then { st with closed := true, closePc := 3 }
        else { st with closed := true, closedSeen := true, closePc := 1 }
      else st
  | .closeDone =>
      if st.closePc = 1 then { st with doneClosed := true, closePc := 2 }
      else st
  | .closeClear =>
      if st.closePc = 2 then
        match st.conn with
        | some _ => { st with conn := none, clearedSeen := true, closePc := 3 }
        | none => { st with closePc := 3 }
      else st
  | .subscribeWrite =>
      match st.conn with
      | some _ => noteWrite st
      | none => st

/-- Run the Connection Manager's tasks under an explicit schedule. -/
def runCM (st : CMState) : List CMAct → CMState
  | [] => st
  | a :: rest => runCM (cmStep st a) rest

/-- A running Connection Manager: connected (handle `h`), not closed,
keepalive loop alive, `Close` not yet called. -/
def initCM (h : Nat) : CMState :=
  { closed := false, doneClosed := false, conn := some h, closePc := 0,
    pingAlive := true, closedSeen := false, clearedSeen := false,
    writeAfterClosed := false, writeAfterCleared := false }

/-- Invariant: no socket write has happened after the handle was cleared,
and once the handle has been cleared it stays nil. -/
def cmInv (st : CMState) : Prop :=
  st.writeAfterCleared = false ∧ (st.clearedSeen = true → st.conn = none)

end internal

/- ### Batched time-series writer (`internal/questdb.go`) -/

namespace internal

/-- One ILP row as `TradeWriter.Write` builds it: the symbol columns, the
typed columns and the designated timestamp (`time.Unix(trade.Timestamp, 0)`,
kept in epoch seconds). -/
structure TradeRow where
  side : String
  outcome : String
  eventSlug : String
  asset : String
  price : Float
  size : Float
  transactionHash : String
  conditionId : String
  outcomeIndex : Int
  marketSlug : String
  eventTitle : String
  proxyWallet : String
  name : String
  pseudonym : String
  atSeconds : Int

/-- The column mapping performed by `TradeWriter.Write`. -/
def rowOf (t : utils.ActivityTradePayload) : TradeRow :=
  { side := t.side
    outcome := t.outcomeTitle
    eventSlug := t.eventSlug
    asset := t.asset
    price := t.price
    size := t.size
    transactionHash := t.transactionHash
    conditionId := t.conditionID
    outcomeIndex := t.outcomeIndex
    marketSlug := t.marketSlug
    eventTitle := t.eventTitle
    proxyWallet := t.proxyWalletAddress
    name := t.name
    pseudonym := t.pseudonym
    atSeconds := t.timestamp }

/-- State of a `TradeWriter`: the `done` channel (`none` = no channel, HTTP
mode; `some b` = channel present, `b` = already closed), the line sender's
unflushed row buffer, and ghost histories — every flush attempt with the rows
it included, every row accepted by a successful `Write`, and every row whose
underlying write was attempted at all — plus whether the sender has been
released. -/
structure TWState where
  done : Option Bool
  buffer : List TradeRow
  flushLog : List (List TradeRow)
  accepted : List TradeRow
  attempted : List TradeRow
  senderClosed : Bool

namespace TradeWriter

/-- `NewTradeWriter` (ILP over TCP): creates the `done` channel and starts
the background flusher. -/
def NewTradeWriter : TWState :=
  { done := some false, buffer := [], flushLog := [], accepted := [],
    attempted := [], senderClosed := false }

/-- `NewTradeWriterHTTP`: no `done` channel, no background flusher (the
transport auto-flushes). -/
def NewTradeWriterHTTP : TWState :=
  { done := none, buffer := [], flushLog := [], accepted := [],
    attempted := [], senderClosed := false }

/-- `TradeWriter.Write`: under the mutex, append one row built from the trade
to the sender's buffer.  `res` is the outcome of the underlying sender call
(`some e` = the chained `Table…At` call failed with error `e`); the row
counts as accepted only on success, but the attempt is recorded either
way. -/
def Write (res : Option String) (w : TWState) (t : utils.ActivityTradePayload) :
    TWState × Option String :=
  let w0 := { w with attempted := w.attempted ++ [rowOf t] }
  match res with
  | some e => (w0, some e)
  | none =>
      ({ w0 with buffer := w0.buffer ++ [rowOf t],
                 accepted := w0.accepted ++ [rowOf t] }, none)

/-- `TradeWriter.Flush` (also the body of one background-flusher tick):
under the mutex, attempt to send the buffered rows.  The attempt is recorded
with exactly the rows it covered; per the client's contract the buffer is not
retried on failure (the next flush proceeds with new data). -/
def Flush (ok : Bool) (w : TWState) : TWState × Option String :=
  ({ w with buffer := [], flushLog := w.flushLog ++ [w.buffer] },
   if ok then none else some "flush error")

/-- `TradeWriter.WriteBatch`: write each record in the given order, stopping
at the first failure and surfacing it; after the last record, one explicit
`Flush`.  `werr` gives the underlying write outcome per trade, `flushOk` the
outcome of the final flush. -/
def WriteBatch (werr : utils.ActivityTradePayload → Option String)
    (flushOk : Bool) (w : TWState) :
    List utils.ActivityTradePayload → TWState × Option String
  | [] => Flush flushOk w
  | t :: ts =>
    match Write (werr t) w t with
    | (w', none) => WriteBatch werr flushOk w' ts
    | (w', some e) => (w', some e)

/-- `TradeWriter.Close`: if the `done` channel exists, close it (`close` of
an already-closed channel panics); then under the mutex perform one final
flush, only printing its error, and return the result of releasing the
sender (`closeRes`). -/
def Close (flushOk : Bool) (closeRes : Option String) (w : TWState) :
    PanicOr (TWState × Option String) :=
  match w.done with
  | some true => .panic
  | some false =>
      let (w1, _flushErr) := Flush flushOk { w with done := some true }
      .ok ({ w1 with senderClosed := true }, closeRes)
  | none =>
      let (w1, _flushErr) := Flush flushOk w
      .ok ({ w1 with senderClosed := true }, closeRes)

end TradeWriter

/-- One externally triggered operation on a `TradeWriter`: a `Write` call
with its underlying outcome, an explicit `Flush`, one background-flusher
tick, or a `WriteBatch`. -/
inductive TWOp where
  | write (t : utils.ActivityTradePayload) (res : Option String)
  | flush (ok : Bool)
  | timerFlush (ok : Bool)
  | writeBatch (ts : List utils.ActivityTradePayload)
      (werr : utils.ActivityTradePayload → Option String) (ok : Bool)

/-- Apply a sequence of operations to a writer (results discarded, states
threaded). -/
def TWExec (w : TWState) : List TWOp → TWState
  | [] => w
  | op :: rest =>
    TWExec
      (match op with
       | .write t res => (TradeWriter.Write res w t).1
       | .flush ok => (TradeWriter.Flush ok w).1
       | .timerFlush ok => (TradeWriter.Flush ok w).1
       | .writeBatch ts werr ok => (TradeWriter.WriteBatch werr ok w ts).1)
      rest

/-- Every accepted row is still buffered or already covered by some flush
attempt. -/
def TWInv (w : TWState) : Prop :=
  ∀ r ∈ w.accepted, r ∈ w.buffer ∨ ∃ b ∈ w.flushLog, r ∈ b

end internal

/- ### Concrete fixtures used by the witness theorems -/

namespace fixtures

/-- The happy-path trade of the spec's scenario section. -/
def tw : utils.ActivityTradePayload :=
  { side := "BUY", price := 0.55, size := 100, transactionHash := "0xabc",
    timestamp := 1700000000 }

/-- An envelope that matches the recognized topic/type combination. -/
def envMatch : utils.IncomingMessage :=
  { topic := "activity", type' := "trades", payload := some [1] }

/-- A matching envelope that carries no payload field (nil raw message). -/
def envNoPayload : utils.IncomingMessage :=
  { topic := "activity", type' := "trades", payload := none }

/-- An envelope on a different topic. -/
def envOther : utils.IncomingMessage :=
  { topic := "comments", type' := "trades", payload := some [1] }

/-- A concrete decoder oracle: byte string `[123]` decodes to the matching
envelope, `[123, 110]` to the payload-less one, `[123, 111]` to the
off-topic one, everything else fails; the payload `[1]` decodes to the
sample trade, everything else fails like empty input does. -/
def Jw : utils.JsonModel :=
  { envUnmarshal := fun m =>
      if m = [123] then .ok envMatch
      else if m = [123, 110] then .ok envNoPayload
      else if m = [123, 111] then .ok envOther
      else .error "invalid character"
    tradeUnmarshal := fun p =>
      if p = [1] then .ok tw else .error "unexpected end of JSON input"
    tradeUnmarshal_empty := by simp }

/-- A marshal oracle that always succeeds. -/
def marshalOk : kafka.TradeMessage → Except String (List Nat) :=
  fun _ => .ok []

/-- A trade the write oracle below rejects. -/
def twBad : utils.ActivityTradePayload := { tw with side := "X" }

/-- A write-outcome oracle failing exactly on `twBad`. -/
def werrW : utils.ActivityTradePayload → Option String :=
  fun t => if t.side = "X" then some "write failed" else none

end fixtures

/- ### Claim theorems -/

theorem errorsIs_refl (e : GoError) : errorsIs e e = true := by
  cases e <;> simp [errorsIs]

theorem errorsIs_wrap_errorf_skip (c s : String) :
    errorsIs (.wrap c (.errorf s)) .errSkipMessage = false := by
  simp [errorsIs]

/-- The sentinel-test dichotomy instantiated at the two error shapes the
classifier can produce. -/
theorem sentinel_iff_wrap_errorf (c s : String) :
    (errorsIs (.wrap c (.errorf s)) utils.ErrSkipMessage = true ↔
      GoError.wrap c (.errorf s) = utils.ErrSkipMessage) := by
  simp [utils.ErrSkipMessage, errorsIs_wrap_errorf_skip]

/-- C1: the classifier's case analysis, exactly as `ParseActivityTrade`
performs it: empty input → skip; non-empty input not starting with the JSON
object start byte → skip (never any other error); input starting with the
object start byte whose envelope decoding fails → a wrapped parse error (not
skip); a decoded envelope off the activity/trades combination → skip; a
matching envelope whose payload fails trade decoding → a wrapped parse
error; a matching envelope whose payload decodes → the trade record. -/
theorem C1_parse_classifier (J : utils.JsonModel) (m : List Nat) :
    (m = [] → utils.ParseActivityTrade J m = .error utils.ErrSkipMessage)
    ∧ (∀ b bs, m = b :: bs → b ≠ utils.jsonObjectStart →
        utils.ParseActivityTrade J m = .error utils.ErrSkipMessage)
    ∧ (∀ bs e, m = utils.jsonObjectStart :: bs → J.envUnmarshal m = .error e →
        utils.ParseActivityTrade J m =
          .error (.wrap "failed to parse incoming message" (.errorf e)))
    ∧ (∀ bs env, m = utils.jsonObjectStart :: bs → J.envUnmarshal m = .ok env →
        (env.topic ≠ utils.TopicActivity ∨ env.type' ≠ utils.TypeTrades) →
        utils.ParseActivityTrade J m = .error utils.ErrSkipMessage)
    ∧ (∀ bs env e, m = utils.jsonObjectStart :: bs → J.envUnmarshal m = .ok env →
        env.topic = utils.TopicActivity → env.type' = utils.TypeTrades →
        J.tradeUnmarshal (env.payload.getD []) = .error e →
        utils.ParseActivityTrade J m =
          .error (.wrap "failed to parse activity trade payload" (.errorf e)))
    ∧ (∀ bs env t, m = utils.jsonObjectStart :: bs → J.envUnmarshal m = .ok env →
        env.topic = utils.TopicActivity → env.type' = utils.TypeTrades →
        J.tradeUnmarshal (env.payload.getD []) = .ok t →
        utils.ParseActivityTrade J m = .ok t) := by
  refine ⟨?_, ?_, ?_, ?_, ?_, ?_⟩
  · rintro rfl
    simp [utils.ParseActivityTrade]
  · rintro b bs rfl hb
    simp [utils.ParseActivityTrade, hb]
  · rintro bs e rfl henv
    simp [utils.ParseActivityTrade, henv]
  · rintro bs env rfl henv hmis
    rcases hmis with hmis | hmis <;>
      simp [utils.ParseActivityTrade, henv, hmis]
  · rintro bs env e rfl henv ht hy hp
    simp [utils.ParseActivityTrade, henv, ht, hy, hp]
  · rintro bs env t rfl henv ht hy hp
    simp [utils.ParseActivityTrade, henv, ht, hy, hp]

/-- Witness for C1: the happy-path envelope decodes to the sample trade. -/
theorem C1_parse_classifier_witness :
    utils.ParseActivityTrade fixtures.Jw [123] = .ok fixtures.tw :=
  (C1_parse_classifier fixtures.Jw [123]).2.2.2.2.2 [] fixtures.envMatch
    fixtures.tw rfl rfl rfl rfl rfl

/-- C3: among all error outcomes of `ParseActivityTrade`, the `errors.Is`
test against the sentinel `ErrSkipMessage` holds exactly on the skip
outcome: the skip outcome is the sentinel itself, and every parse-error
outcome fails the sentinel test (no string inspection needed). -/
theorem C3_sentinel_discrimination (J : utils.JsonModel) (m : List Nat)
    (e : GoError) (h : utils.ParseActivityTrade J m = .error e) :
    (errorsIs e utils.ErrSkipMessage = true ↔ e = utils.ErrSkipMessage) := by
  rcases m with _ | ⟨b, bs⟩
  · simp [utils.ParseActivityTrade] at h
    subst h
    exact ⟨fun _ => rfl, fun _ => errorsIs_refl _⟩
  · by_cases h1 : b = utils.jsonObjectStart
    · subst h1
      rcases henv : J.envUnmarshal (utils.jsonObjectStart :: bs) with e' | env
      · simp [utils.ParseActivityTrade, henv] at h
        subst h
        exact sentinel_iff_wrap_errorf _ _
      · by_cases h2 : env.topic ≠ utils.TopicActivity ∨ env.type' ≠ utils.TypeTrades
        · simp [utils.ParseActivityTrade, henv, h2] at h
          subst h
          exact ⟨fun _ => rfl, fun _ => errorsIs_refl _⟩
        · rcases hp : J.tradeUnmarshal (env.payload.getD []) with e' | t
          · simp [utils.ParseActivityTrade, henv, h2, hp] at h
            subst h
            exact sentinel_iff_wrap_errorf _ _
          · simp [utils.ParseActivityTrade, henv, h2, hp] at h
    · simp [utils.ParseActivityTrade, h1] at h
      subst h
      exact ⟨fun _ => rfl, fun _ => errorsIs_refl _⟩

/-- Witness for C3: a concrete parse-error outcome fails the sentinel test. -/
theorem C3_sentinel_discrimination_witness :
    (errorsIs
        (.wrap "failed to parse incoming message" (.errorf "invalid character"))
        utils.ErrSkipMessage = true) ↔
      GoError.wrap "failed to parse incoming message" (.errorf "invalid character") =
        utils.ErrSkipMessage :=
  C3_sentinel_discrimination fixtures.Jw [123, 112] _ rfl

/-- C10: a well-formed envelope on the activity/trades combination that
carries no payload field at all (nil raw message) makes `ParseActivityTrade`
return a parse error — `json.Unmarshal` fails on empty input — and not the
skip signal. -/
theorem C10_missing_payload (J : utils.JsonModel) (m bs : List Nat)
    (env : utils.IncomingMessage) (hm : m = utils.jsonObjectStart :: bs)
    (henv : J.envUnmarshal m = .ok env) (ht : env.topic = utils.TopicActivity)
    (hy : env.type' = utils.TypeTrades) (hp : env.payload = none) :
    utils.ParseActivityTrade J m =
        .error (.wrap "failed to parse activity trade payload"
          (.errorf "unexpected end of JSON input"))
      ∧ utils.ParseActivityTrade J m ≠ .error utils.ErrSkipMessage := by
  subst hm
  constructor
  · simp [utils.ParseActivityTrade, henv, ht, hy, hp, J.tradeUnmarshal_empty]
  · simp [utils.ParseActivityTrade, henv, ht, hy, hp, J.tradeUnmarshal_empty,
      utils.ErrSkipMessage]

/-- Witness for C10: the concrete payload-less envelope yields the parse
error. -/
theorem C10_missing_payload_witness :
    utils.ParseActivityTrade fixtures.Jw [123, 110] =
        .error (.wrap "failed to parse activity trade payload"
          (.errorf "unexpected end of JSON input"))
      ∧ utils.ParseActivityTrade fixtures.Jw [123, 110] ≠
        .error utils.ErrSkipMessage :=
  C10_missing_payload fixtures.Jw _ [110] fixtures.envNoPayload rfl rfl rfl rfl rfl

/-- C2: `ProduceTrade` keys every record by the transaction-hash bytes when
the hash is non-empty — so two trades with the same non-empty hash get the
same key — and leaves the key unset (nil) when the hash is empty. -/
theorem C2_partition_key :
    (∀ (marshal : kafka.TradeMessage → Except String (List Nat)) (topic : String)
        (t1 t2 : utils.ActivityTradePayload) (r1 r2 : kafka.KafkaRecord),
      t1.transactionHash = t2.transactionHash → t1.transactionHash ≠ "" →
      kafka.ProduceTrade marshal topic (some t1) = .ok (some r1) →
      kafka.ProduceTrade marshal topic (some t2) = .ok (some r2) →
      r1.key = some (kafka.strBytes t1.transactionHash) ∧ r1.key = r2.key)
    ∧ (∀ (marshal : kafka.TradeMessage → Except String (List Nat))
        (topic : String) (t : utils.ActivityTradePayload) (r : kafka.KafkaRecord),
      t.transactionHash = "" →
      kafka.ProduceTrade marshal topic (some t) = .ok (some r) →
      r.key = none) := by
  constructor
  · intro marshal topic t1 t2 r1 r2 hsame hne h1 h2
    simp only [kafka.ProduceTrade] at h1 h2
    rcases hm1 : marshal (kafka.tradeMessageOf t1) with e1 | v1 <;>
      rw [hm1] at h1
    · cases h1
    rcases hm2 : marshal (kafka.tradeMessageOf t2) with e2 | v2 <;>
      rw [hm2] at h2
    · cases h2
    simp only [Except.ok.injEq, Option.some.injEq] at h1 h2
    subst h1
    subst h2
    refine ⟨by simp [hne], ?_⟩
    have hne2 : t2.transactionHash ≠ "" := hsame ▸ hne
    simp [hne, hne2, hsame]
  · intro marshal topic t r hempty h
    simp only [kafka.ProduceTrade] at h
    rcases hm : marshal (kafka.tradeMessageOf t) with e | v <;> rw [hm] at h
    · cases h
    simp only [Except.ok.injEq, Option.some.injEq] at h
    subst h
    simp [hempty]

/-- Witness for C2: two trades sharing the hash `0xabc` get identical keys
equal to the hash bytes. -/
theorem C2_partition_key_witness :
    (kafka.KafkaRecord.mk "pm.trades" (some (kafka.strBytes "0xabc")) []).key =
        some (kafka.strBytes "0xabc")
      ∧ (kafka.KafkaRecord.mk "pm.trades" (some (kafka.strBytes "0xabc")) []).key =
        (kafka.KafkaRecord.mk "pm.trades" (some (kafka.strBytes "0xabc")) []).key :=
  C2_partition_key.1 fixtures.marshalOk "pm.trades" fixtures.tw
    { fixtures.tw with side := "SELL" } _ _ rfl (by decide) rfl rfl

/-- C7 counterexample: the receive loop ignores the frame type returned by
`ReadMessage`, so a binary frame whose bytes spell `pong` is also consumed
silently, while the claim — which restricts the discard to text frames and
asks that every other frame be forwarded verbatim — predicts it would be
forwarded. -/
theorem C7_pong_counterexample :
    internal.handleFrame true internal.BinaryMessage internal.pongBytes = none
    ∧ ¬ (∀ (messageType : Nat) (message : List Nat),
        (messageType = internal.TextMessage ∧ message = internal.pongBytes →
          internal.handleFrame true messageType message = none)
        ∧ (¬(messageType = internal.TextMessage ∧ message = internal.pongBytes) →
          internal.handleFrame true messageType message = some message)) := by
  refine ⟨rfl, fun hclaim => ?_⟩
  have h := (hclaim internal.BinaryMessage internal.pongBytes).2 (by decide)
  exact absurd h (by decide)

/-- C7 (amended): the receive loop discards any frame whose raw bytes equal
the literal `pong`, regardless of frame type, never invoking the callback
for it; every frame whose bytes differ is forwarded verbatim (unmodified
bytes) to the registered callback on the read path. -/
theorem C7_pong_filter (messageType : Nat) (message : List Nat) :
    internal.handleFrame true messageType message =
      if message = internal.pongBytes then none else some message := rfl

/-- C9: a TradeWriter built by `NewTradeWriter` (TCP mode, non-nil `done`
channel) survives one `Close`, but a second `Close` panics: `Close`
unconditionally closes the `done` channel whenever it is non-nil, and
closing an already-closed channel panics. -/
theorem C9_tcp_double_close_panics (f f' : Bool) (c c' : Option String) :
    ∃ w1, internal.TradeWriter.Close f c internal.TradeWriter.NewTradeWriter =
        .ok (w1, c)
      ∧ internal.TradeWriter.Close f' c' w1 = .panic :=
  ⟨_, rfl, rfl⟩

open internal internal.WebSocketClient in
theorem set_closed_self (st : internal.WSState) (h : st.closed = true) :
    ({ st with closed := true } : internal.WSState) = st := by
  cases st
  simp_all

open internal internal.WebSocketClient in
theorem closeResult_closed (st : internal.WSState) :
    (closeResult st).closed = true := by
  unfold closeResult
  by_cases h : st.closed = true
  · simp [h]
  · rcases hc : st.conn <;> simp [h, hc]

open internal internal.WebSocketClient in
theorem closeResult_releases (st : internal.WSState) :
    (closeResult st).socketReleases ≤ st.socketReleases + 1 := by
  unfold closeResult
  by_cases h : st.closed = true
  · simp [h]
  · rcases hc : st.conn <;> simp [h, hc]

open internal internal.WebSocketClient in
theorem Close_eq_closeResult (st : internal.WSState)
    (h : st.closed = false → st.doneClosed = false) :
    Close st = .ok (closeResult st) := by
  unfold Close closeResult
  by_cases hc : st.closed = true
  · simp [hc]
  · have hc' : st.closed = false := by simpa using hc
    have hd : st.doneClosed = false := h hc'
    rcases hx : st.conn <;> simp [hc, hd, hx]

open internal internal.WebSocketClient in
theorem Close_closeResult_noop (st : internal.WSState) :
    Close (closeResult st) = .ok (closeResult st) := by
  unfold Close
  simp [closeResult_closed st]

open internal internal.WebSocketClient in
theorem threadStep_start_closed (st : internal.WSState) (h : st.closed = true) :
    threadStep .start st = .ok (.halted, st) := by
  simp [threadStep, h, set_closed_self st h]

open internal internal.WebSocketClient in
theorem sideInv_closed (st0 : internal.WSState) (p q : TPC)
    (st : internal.WSState) (hs : sideInv st0 p q st) : st.closed = true := by
  rcases hs with ⟨_, _, rfl⟩ | ⟨_, _, rfl⟩ | ⟨_, _, rfl⟩
  · rfl
  · rfl
  · exact closeResult_closed st0

open internal internal.WebSocketClient in
theorem inv2_swap {st0 : internal.WSState} {p1 p2 : TPC}
    {st : internal.WSState} (h : inv2 st0 p1 p2 st) : inv2 st0 p2 p1 st := by
  unfold inv2 at h ⊢
  tauto

open internal internal.WebSocketClient in
theorem step_preserve (st0 : internal.WSState)
    (h : st0.closed = false → st0.doneClosed = false)
    (p1 p2 : TPC) (st : internal.WSState) (hinv : inv2 st0 p1 p2 st) :
    ∃ p1' st', threadStep p1 st = .ok (p1', st')
      ∧ inv2 st0 p1' p2 st' := by
  rcases hinv with ⟨hc, hp1, hp2, rfl⟩ | ⟨hc, hcase⟩
  · rcases hp1 with rfl | rfl
    · exact ⟨.halted, st, threadStep_start_closed st hc,
        Or.inl ⟨hc, Or.inr rfl, hp2, rfl⟩⟩
    · exact ⟨.halted, st, rfl, Or.inl ⟨hc, Or.inr rfl, hp2, rfl⟩⟩
  · rcases hcase with ⟨rfl, rfl, rfl⟩ | hside | hside
    · refine ⟨.doClose, midA st, ?_, ?_⟩
      · simp [threadStep, hc, midA]
      · exact Or.inr ⟨hc, Or.inr (Or.inl (Or.inl ⟨rfl, Or.inl rfl, rfl⟩))⟩
    · rcases hside with ⟨rfl, hq, rfl⟩ | ⟨rfl, hq, rfl⟩ | ⟨rfl, hq, rfl⟩
      · have hd : st0.doneClosed = false := h hc
        refine ⟨.doRelease, midB st0, ?_, ?_⟩
        · simp [threadStep, midA, midB, hd]
        · exact Or.inr ⟨hc, Or.inr (Or.inl (Or.inr (Or.inl ⟨rfl, hq, rfl⟩)))⟩
      · rcases hx : st0.conn with _ | v
        · refine ⟨.halted, midB st0, ?_, ?_⟩
          · simp [threadStep, midB, hx]
          · refine Or.inr ⟨hc, Or.inr (Or.inl (Or.inr (Or.inr ⟨rfl, hq, ?_⟩)))⟩
            simp [closeResult, midB, hc, hx]
        · refine ⟨.halted, closeResult st0, ?_, ?_⟩
          · simp [threadStep, midB, closeResult, hc, hx]
          · exact Or.inr ⟨hc, Or.inr (Or.inl (Or.inr (Or.inr ⟨rfl, hq, rfl⟩)))⟩
      · exact ⟨.halted, closeResult st0, rfl,
          Or.inr ⟨hc, Or.inr (Or.inl (Or.inr (Or.inr ⟨rfl, hq, rfl⟩)))⟩⟩
    · have hcl : st.closed = true := sideInv_closed st0 p2 p1 st hside
      have hq : ∀ q', sideInv st0 p2 q' st → True := fun _ _ => trivial
      rcases hside with ⟨hs2, hq1, rfl⟩ | ⟨hs2, hq1, rfl⟩ | ⟨hs2, hq1, rfl⟩ <;>
        rcases hq1 with rfl | rfl
      · exact ⟨.halted, midA st0, threadStep_start_closed _ hcl,
          Or.inr ⟨hc, Or.inr (Or.inr (Or.inl ⟨hs2, Or.inr rfl, rfl⟩))⟩⟩
      · exact ⟨.halted, midA st0, rfl,
          Or.inr ⟨hc, Or.inr (Or.inr (Or.inl ⟨hs2, Or.inr rfl, rfl⟩))⟩⟩
      · exact ⟨.halted, midB st0, threadStep_start_closed _ hcl,
          Or.inr ⟨hc, Or.inr (Or.inr (Or.inr (Or.inl ⟨hs2, Or.inr rfl, rfl⟩)))⟩⟩
      · exact ⟨.halted, midB st0, rfl,
          Or.inr ⟨hc, Or.inr (Or.inr (Or.inr (Or.inl ⟨hs2, Or.inr rfl, rfl⟩)))⟩⟩
      · exact ⟨.halted, closeResult st0, threadStep_start_closed _ hcl,
          Or.inr ⟨hc, Or.inr (Or.inr (Or.inr (Or.inr ⟨hs2, Or.inr rfl, rfl⟩)))⟩⟩
      · exact ⟨.halted, closeResult st0, rfl,
          Or.inr ⟨hc, Or.inr (Or.inr (Or.inr (Or.inr ⟨hs2, Or.inr rfl, rfl⟩)))⟩⟩

open internal internal.WebSocketClient in
theorem run2_inv (st0 : internal.WSState)
    (h : st0.closed = false → st0.doneClosed = false) :
    ∀ (sched : List Bool) (p1 p2 : TPC) (st : internal.WSState),
    inv2 st0 p1 p2 st →
    ∃ p1' p2' st', run2 sched p1 p2 st = .ok (p1', p2', st')
      ∧ inv2 st0 p1' p2' st' := by
  intro sched
  induction sched with
  | nil => exact fun p1 p2 st hinv => ⟨p1, p2, st, rfl, hinv⟩
  | cons b rest ih =>
    intro p1 p2 st hinv
    cases b
    · obtain ⟨p2', st', hstep, hinv'⟩ :=
        step_preserve st0 h p2 p1 st (inv2_swap hinv)
      obtain ⟨q1, q2, st'', hrun, hinv''⟩ := ih p1 p2' st' (inv2_swap hinv')
      exact ⟨q1, q2, st'', by simp [run2, hstep, hrun], hinv''⟩
    · obtain ⟨p1', st', hstep, hinv'⟩ := step_preserve st0 h p1 p2 st hinv
      obtain ⟨q1, q2, st'', hrun, hinv''⟩ := ih p1' p2 st' hinv'
      exact ⟨q1, q2, st'', by simp [run2, hstep, hrun], hinv''⟩

open internal internal.WebSocketClient in
theorem inv2_init (st0 : internal.WSState) : inv2 st0 .start .start st0 := by
  by_cases hc : st0.closed = true
  · exact Or.inl ⟨hc, Or.inl rfl, Or.inl rfl, rfl⟩
  · exact Or.inr ⟨by simpa using hc, Or.inl ⟨rfl, rfl, rfl⟩⟩

open internal internal.WebSocketClient in
theorem inv2_halted (st0 : internal.WSState) (p1 p2 : TPC)
    (st : internal.WSState) (hinv : inv2 st0 p1 p2 st)
    (h1 : p1 = .halted) (h2 : p2 = .halted) : st = closeResult st0 := by
  subst h1
  subst h2
  rcases hinv with ⟨hc, _, _, rfl⟩ | ⟨hc, hcase⟩
  · simp [closeResult, hc]
  · rcases hcase with ⟨hs, _, _⟩ | hside | hside
    · simp at hs
    · rcases hside with ⟨hs, _, _⟩ | ⟨hs, _, _⟩ | ⟨_, _, rfl⟩
      · simp at hs
      · simp at hs
      · rfl
    · rcases hside with ⟨hs, _, _⟩ | ⟨hs, _, _⟩ | ⟨_, _, rfl⟩
      · simp at hs
      · simp at hs
      · rfl

/-- C4: `WebSocketClient.Close` is idempotent.  For any client state whose
`done` channel has not been closed without the flag being set (the invariant
the code maintains): a first `Close` completes without panic and yields
`closeResult st`; a second sequential `Close` is a no-op on that state; the
socket handle is released at most once across both calls; and under every
interleaving of two concurrent `Close` calls no step panics, and when both
calls have returned, the state is exactly the one a single `Close` produces.
The state is arbitrary, so this covers `Close` before `Connect` (nil handle)
and after a completed close. -/
theorem C4_close_idempotent (st : internal.WSState)
    (h : st.closed = false → st.doneClosed = false) :
    (internal.WebSocketClient.Close st =
        .ok (internal.WebSocketClient.closeResult st)
      ∧ internal.WebSocketClient.Close (internal.WebSocketClient.closeResult st) =
        .ok (internal.WebSocketClient.closeResult st)
      ∧ (internal.WebSocketClient.closeResult st).socketReleases ≤
        st.socketReleases + 1)
    ∧ (∀ sched : List Bool, ∃ p1 p2 st',
        internal.WebSocketClient.run2 sched .start .start st = .ok (p1, p2, st')
        ∧ (p1 = .halted → p2 = .halted →
            st' = internal.WebSocketClient.closeResult st)) := by
  refine ⟨⟨Close_eq_closeResult st h, Close_closeResult_noop st,
    closeResult_releases st⟩, fun sched => ?_⟩
  obtain ⟨p1, p2, st', hrun, hinv⟩ :=
    run2_inv st h sched .start .start st (inv2_init st)
  exact ⟨p1, p2, st', hrun, fun h1 h2 => inv2_halted st p1 p2 st' hinv h1 h2⟩

/-- Witness for C4: a fresh connected client (nil-free handle, not closed). -/
theorem C4_close_idempotent_witness :
    internal.WebSocketClient.Close ⟨false, false, some 0, 0⟩ =
        .ok (internal.WebSocketClient.closeResult ⟨false, false, some 0, 0⟩)
      ∧ internal.WebSocketClient.Close
          (internal.WebSocketClient.closeResult ⟨false, false, some 0, 0⟩) =
        .ok (internal.WebSocketClient.closeResult ⟨false, false, some 0, 0⟩)
      ∧ (internal.WebSocketClient.closeResult
          ⟨false, false, some 0, 0⟩).socketReleases ≤
        (⟨false, false, some 0, 0⟩ : internal.WSState).socketReleases + 1 :=
  (C4_close_idempotent ⟨false, false, some 0, 0⟩ (fun _ => rfl)).1

open internal in
theorem cmStep_inv (st : internal.CMState) (a : internal.CMAct)
    (hinv : cmInv st) : cmInv (cmStep st a) := by
  obtain ⟨hw, hc⟩ := hinv
  have hcl : ∀ v, st.conn = some v → st.clearedSeen = false := by
    intro v hv
    rcases hcs : st.clearedSeen
    · rfl
    · rw [hc hcs] at hv
      cases hv
  cases a
  case pingTick =>
    by_cases hp : st.pingAlive = true
    · rcases hconn : st.conn with _ | v
      · simpa [cmStep, hp, hconn] using ⟨hw, hc⟩
      · simp [cmStep, hp, hconn, noteWrite, cmInv, hw, hcl v hconn]
    · simpa [cmStep, hp] using ⟨hw, hc⟩
  case pingExit =>
    by_cases hd : st.doneClosed = true
    · exact ⟨by simp [cmStep, hd, hw], by simp [cmStep, hd]; exact hc⟩
    · simpa [cmStep, hd] using ⟨hw, hc⟩
  case closeSwap =>
    by_cases h0 : st.closePc = 0
    · by_cases hcl0 : st.closed = true
      · exact ⟨by simp [cmStep, h0, hcl0, hw], by simp [cmStep, h0, hcl0]; exact hc⟩
      · exact ⟨by simp [cmStep, h0, hcl0, hw], by simp [cmStep, h0, hcl0]; exact hc⟩
    · simpa [cmStep, h0] using ⟨hw, hc⟩
  case closeDone =>
    by_cases h1 : st.closePc = 1
    · exact ⟨by simp [cmStep, h1, hw], by simp [cmStep, h1]; exact hc⟩
    · simpa [cmStep, h1] using ⟨hw, hc⟩
  case closeClear =>
    by_cases h2 : st.closePc = 2
    · rcases hconn : st.conn with _ | v
      · exact ⟨by simp [cmStep, h2, hconn, hw], by simp [cmStep, h2, hconn, hc]⟩
      · exact ⟨by simp [cmStep, h2, hconn, hw], by simp [cmStep, h2, hconn]⟩
    · simpa [cmStep, h2] using ⟨hw, hc⟩
  case subscribeWrite =>
    rcases hconn : st.conn with _ | v
    · simpa [cmStep, hconn] using ⟨hw, hc⟩
    · simp [cmStep, hconn, noteWrite, cmInv, hw, hcl v hconn]

open internal in
theorem runCM_inv :
    ∀ (sched : List internal.CMAct) (st : internal.CMState),
    cmInv st → cmInv (runCM st sched) := by
  intro sched
  induction sched with
  | nil => exact fun st hinv => hinv
  | cons a rest ih => exact fun st hinv => ih _ (cmStep_inv st a hinv)

/-- C8 counterexample: with the ping loop and `Close` interleaved, a socket
write can happen after the `closed` flag has transitioned to true — the
schedule where `Close` performs its swap and the keepalive tick then wins
the mutex (the handle is still non-nil, since `Close` has not yet reached
its clearing step) produces exactly such a write. -/
theorem C8_write_after_closed_counterexample :
    (internal.runCM (internal.initCM 0)
        [.closeSwap, .pingTick]).writeAfterClosed = true
    ∧ ¬ (∀ (h : Nat) (sched : List internal.CMAct),
        (internal.runCM (internal.initCM h) sched).writeAfterClosed = false) :=
  ⟨rfl, fun hclaim =>
    absurd (hclaim 0 [.closeSwap, .pingTick]) (by decide)⟩

/-- C8 (amended): in every interleaving of the Connection Manager's tasks
(keepalive loop, subscribe/unsubscribe, close), once `Close` has cleared the
socket handle under the writer-exclusion lock, no further write is ever
attempted on the handle: the keepalive loop and the subscribe writes only
touch the socket while the handle is non-nil under the same lock, and the
handle stays nil after clearing.  (Between the `closed` flag transition and
the handle clearing, a ping write may still occur — see the
counterexample.) -/
theorem C8_no_write_after_clear (h : Nat) (sched : List internal.CMAct) :
    (internal.runCM (internal.initCM h) sched).writeAfterCleared = false :=
  (runCM_inv sched (internal.initCM h) ⟨rfl, by simp [internal.initCM]⟩).1

open internal internal.TradeWriter in
theorem Write_done (res : Option String) (w : internal.TWState)
    (t : utils.ActivityTradePayload) : ((Write res w t).1).done = w.done := by
  rcases res with _ | e <;> rfl

open internal internal.TradeWriter in
theorem WriteBatch_done (werr : utils.ActivityTradePayload → Option String)
    (ok : Bool) :
    ∀ (ts : List utils.ActivityTradePayload) (w : internal.TWState),
    ((WriteBatch werr ok w ts).1).done = w.done := by
  intro ts
  induction ts with
  | nil => intro w; rfl
  | cons t rest ih =>
    intro w
    rcases hres : werr t with _ | e
    · simp only [WriteBatch, Write, hres]
      exact ih _
    · simp only [WriteBatch, Write, hres]

open internal internal.TradeWriter in
theorem TWExec_done :
    ∀ (ops : List internal.TWOp) (w : internal.TWState),
    (internal.TWExec w ops).done = w.done := by
  intro ops
  induction ops with
  | nil => intro w; rfl
  | cons op rest ih =>
    intro w
    rcases op with ⟨t, res⟩ | ok | ok | ⟨ts, werr, ok⟩
    · exact (ih _).trans (Write_done res w t)
    · exact ih _
    · exact ih _
    · exact (ih _).trans (WriteBatch_done werr ok ts w)

open internal internal.TradeWriter in
theorem TWInv_Write (res : Option String) (w : internal.TWState)
    (t : utils.ActivityTradePayload) (h : internal.TWInv w) :
    internal.TWInv ((Write res w t).1) := by
  unfold internal.TWInv at h ⊢
  rcases res with _ | e
  · intro r hr
    simp only [Write] at hr ⊢
    rcases List.mem_append.mp hr with hold | hnew
    · rcases h r hold with hb | ⟨b, hbm, hrb⟩
      · exact Or.inl (List.mem_append.mpr (Or.inl hb))
      · exact Or.inr ⟨b, hbm, hrb⟩
    · exact Or.inl (List.mem_append.mpr (Or.inr hnew))
  · intro r hr
    simp only [Write] at hr ⊢
    exact h r hr

open internal internal.TradeWriter in
theorem TWInv_Flush (ok : Bool) (w : internal.TWState)
    (h : internal.TWInv w) : internal.TWInv ((Flush ok w).1) := by
  unfold internal.TWInv at h ⊢
  intro r hr
  simp only [Flush] at hr ⊢
  rcases h r hr with hb | ⟨b, hbm, hrb⟩
  · exact Or.inr ⟨w.buffer, by simp, hb⟩
  · exact Or.inr ⟨b, by simp [hbm], hrb⟩

open internal internal.TradeWriter in
theorem TWInv_WriteBatch (werr : utils.ActivityTradePayload → Option String)
    (ok : Bool) :
    ∀ (ts : List utils.ActivityTradePayload) (w : internal.TWState),
    internal.TWInv w → internal.TWInv ((WriteBatch werr ok w ts).1) := by
  intro ts
  induction ts with
  | nil => exact fun w h => TWInv_Flush ok w h
  | cons t rest ih =>
    intro w h
    rcases hres : werr t with _ | e
    · simp only [WriteBatch, Write, hres]
      exact ih _ (TWInv_Write none w t h)
    · simp only [WriteBatch, Write, hres]
      exact TWInv_Write (some e) w t h

open internal internal.TradeWriter in
theorem TWExec_inv :
    ∀ (ops : List internal.TWOp) (w : internal.TWState),
    internal.TWInv w → internal.TWInv (internal.TWExec w ops) := by
  intro ops
  induction ops with
  | nil => exact fun _ h => h
  | cons op rest ih =>
    intro w h
    rcases op with ⟨t, res⟩ | ok | ok | ⟨ts, werr, ok⟩
    · exact ih _ (TWInv_Write res w t h)
    · exact ih _ (TWInv_Flush ok w h)
    · exact ih _ (TWInv_Flush ok w h)
    · exact ih _ (TWInv_WriteBatch werr ok ts w h)

open internal internal.TradeWriter in
theorem Close_tcp (f : Bool) (c : Option String) (w : internal.TWState)
    (hd : w.done = some false) :
    Close f c w =
      .ok ({ w with done := some true, buffer := [],
                    flushLog := w.flushLog ++ [w.buffer],
                    senderClosed := true }, c) := by
  unfold Close Flush
  rw [hd]

open internal internal.TradeWriter in
theorem Close_http (f : Bool) (c : Option String) (w : internal.TWState)
    (hd : w.done = none) :
    Close f c w =
      .ok ({ w with buffer := [],
                    flushLog := w.flushLog ++ [w.buffer],
                    senderClosed := true }, c) := by
  unfold Close Flush
  rw [hd]

/-- C5: for every `TradeWriter` reachable from either constructor by any
sequence of writes and (explicit or timer-driven) flushes, `Close` closes
the `done` channel when one exists (stopping the background flusher),
performs exactly one final flush covering the whole remaining buffer, always
proceeds to release the sender and returns the release result — a final
flush failure is logged, not raised — and afterwards every row ever accepted
by `Write` is contained in some flush attempt. -/
theorem C5_final_flush_on_close (ops : List internal.TWOp) (flushOk : Bool)
    (closeRes : Option String) (w0 : internal.TWState)
    (h0 : w0 = internal.TradeWriter.NewTradeWriter
      ∨ w0 = internal.TradeWriter.NewTradeWriterHTTP) :
    ∃ w', internal.TradeWriter.Close flushOk closeRes
        (internal.TWExec w0 ops) = .ok (w', closeRes)
      ∧ w'.done = (internal.TWExec w0 ops).done.map (fun _ => true)
      ∧ w'.flushLog =
          (internal.TWExec w0 ops).flushLog ++ [(internal.TWExec w0 ops).buffer]
      ∧ w'.senderClosed = true
      ∧ ∀ r ∈ (internal.TWExec w0 ops).accepted, ∃ b ∈ w'.flushLog, r ∈ b := by
  have hinv0 : internal.TWInv w0 := by
    rcases h0 with rfl | rfl <;>
      exact fun r hr => absurd hr (List.not_mem_nil r)
  have hinv := TWExec_inv ops w0 hinv0
  have hmem : ∀ (w' : internal.TWState),
      w'.flushLog = (internal.TWExec w0 ops).flushLog ++
        [(internal.TWExec w0 ops).buffer] →
      ∀ r ∈ (internal.TWExec w0 ops).accepted, ∃ b ∈ w'.flushLog, r ∈ b := by
    intro w' hlog r hr
    rcases hinv r hr with hb | ⟨b, hbm, hrb⟩
    · exact ⟨(internal.TWExec w0 ops).buffer, by simp [hlog], hb⟩
    · exact ⟨b, by simp [hlog, hbm], hrb⟩
  rcases h0 with rfl | rfl
  · have hdone : (internal.TWExec internal.TradeWriter.NewTradeWriter ops).done =
        some false := TWExec_done ops _
    rw [Close_tcp flushOk closeRes _ hdone]
    refine ⟨_, rfl, by simp [hdone], rfl, rfl, hmem _ rfl⟩
  · have hdone :
        (internal.TWExec internal.TradeWriter.NewTradeWriterHTTP ops).done =
        none := TWExec_done ops _
    rw [Close_http flushOk closeRes _ hdone]
    refine ⟨_, rfl, by simp [hdone], rfl, rfl, hmem _ rfl⟩

/-- Witness for C5: one accepted write, a failing final flush; the close
still releases the sender, returns the release result, and the row is
covered by the final flush attempt. -/
theorem C5_final_flush_on_close_witness :
    ∃ w', internal.TradeWriter.Close false none
        (internal.TWExec internal.TradeWriter.NewTradeWriter
          [internal.TWOp.write fixtures.tw none]) = .ok (w', none)
      ∧ w'.done = (internal.TWExec internal.TradeWriter.NewTradeWriter
          [internal.TWOp.write fixtures.tw none]).done.map (fun _ => true)
      ∧ w'.flushLog =
          (internal.TWExec internal.TradeWriter.NewTradeWriter
            [internal.TWOp.write fixtures.tw none]).flushLog ++
          [(internal.TWExec internal.TradeWriter.NewTradeWriter
            [internal.TWOp.write fixtures.tw none]).buffer]
      ∧ w'.senderClosed = true
      ∧ ∀ r ∈ (internal.TWExec internal.TradeWriter.NewTradeWriter
          [internal.TWOp.write fixtures.tw none]).accepted,
          ∃ b ∈ w'.flushLog, r ∈ b :=
  C5_final_flush_on_close [internal.TWOp.write fixtures.tw none] false none
    internal.TradeWriter.NewTradeWriter (Or.inl rfl)

open internal internal.TradeWriter in
theorem WriteBatch_first_failure
    (werr : utils.ActivityTradePayload → Option String) (flushOk : Bool) :
    ∀ (ts : List utils.ActivityTradePayload) (w : internal.TWState) (i : Nat)
      (hi : i < ts.length) (e : String),
    (∀ j (hj : j < ts.length), j < i → werr (ts.get ⟨j, hj⟩) = none) →
    werr (ts.get ⟨i, hi⟩) = some e →
    WriteBatch werr flushOk w ts =
      ({ w with buffer := w.buffer ++ (ts.take i).map internal.rowOf,
                accepted := w.accepted ++ (ts.take i).map internal.rowOf,
                attempted := w.attempted ++ (ts.take (i + 1)).map internal.rowOf },
       some e) := by
  intro ts
  induction ts with
  | nil => intro w i hi; exact absurd hi (by simp)
  | cons t rest ih =>
    intro w i hi e hprev hfail
    rcases i with _ | k
    · have ht : werr t = some e := hfail
      simp only [WriteBatch, Write, ht]
      simp
    · have h0 : werr t = none := hprev 0 (by simp) (by omega)
      simp only [WriteBatch, Write, h0]
      have hrest : ∀ j (hj : j < rest.length), j < k →
          werr (rest.get ⟨j, hj⟩) = none := by
        intro j hj hjk
        exact hprev (j + 1) (by simpa using Nat.succ_lt_succ hj)
          (Nat.succ_lt_succ hjk)
      rw [ih _ k (by simpa using Nat.succ_lt_succ_iff.mp hi) e hrest hfail]
      simp [List.take_succ_cons, List.append_assoc]

open internal internal.TradeWriter in
theorem WriteBatch_all_success
    (werr : utils.ActivityTradePayload → Option String) (flushOk : Bool) :
    ∀ (ts : List utils.ActivityTradePayload) (w : internal.TWState),
    (∀ t ∈ ts, werr t = none) →
    WriteBatch werr flushOk w ts =
      ({ w with buffer := [],
                accepted := w.accepted ++ ts.map internal.rowOf,
                attempted := w.attempted ++ ts.map internal.rowOf,
                flushLog := w.flushLog ++ [w.buffer ++ ts.map internal.rowOf] },
       if flushOk then none else some "flush error") := by
  intro ts
  induction ts with
  | nil =>
    intro w _
    simp [WriteBatch, Flush]
  | cons t rest ih =>
    intro w hall
    have h0 : werr t = none := hall t (by simp)
    simp only [WriteBatch, Write, h0]
    rw [ih _ (fun u hu => hall u (by simp [hu]))]
    simp [List.append_assoc]

/-- C6: `WriteBatch` writes the given records in list order.  If the
underlying write first fails at index `i`, every earlier record has been
written (buffered and accepted, in order), the error produced by writing
record `i` surfaces to the caller, record `i` is the last one whose write is
even attempted, and no flush occurs (the flush-attempt log is unchanged).
If every write succeeds, exactly one explicit flush runs after the last
record, covering the whole buffer, and its outcome is returned. -/
theorem C6_write_batch_first_failure
    (werr : utils.ActivityTradePayload → Option String) (flushOk : Bool)
    (w : internal.TWState) (ts : List utils.ActivityTradePayload) :
    (∀ (i : Nat) (hi : i < ts.length) (e : String),
      (∀ j (hj : j < ts.length), j < i → werr (ts.get ⟨j, hj⟩) = none) →
      werr (ts.get ⟨i, hi⟩) = some e →
      (internal.TradeWriter.WriteBatch werr flushOk w ts).2 = some e
      ∧ ((internal.TradeWriter.WriteBatch werr flushOk w ts).1).buffer =
          w.buffer ++ (ts.take i).map internal.rowOf
      ∧ ((internal.TradeWriter.WriteBatch werr flushOk w ts).1).accepted =
          w.accepted ++ (ts.take i).map internal.rowOf
      ∧ ((internal.TradeWriter.WriteBatch werr flushOk w ts).1).attempted =
          w.attempted ++ (ts.take (i + 1)).map internal.rowOf
      ∧ ((internal.TradeWriter.WriteBatch werr flushOk w ts).1).flushLog =
          w.flushLog)
    ∧ ((∀ t ∈ ts, werr t = none) →
      (internal.TradeWriter.WriteBatch werr flushOk w ts).2 =
          (if flushOk then none else some "flush error")
      ∧ ((internal.TradeWriter.WriteBatch werr flushOk w ts).1).buffer = []
      ∧ ((internal.TradeWriter.WriteBatch werr flushOk w ts).1).accepted =
          w.accepted ++ ts.map internal.rowOf
      ∧ ((internal.TradeWriter.WriteBatch werr flushOk w ts).1).flushLog =
          w.flushLog ++ [w.buffer ++ ts.map internal.rowOf]) := by
  constructor
  · intro i hi e hprev hfail
    rw [WriteBatch_first_failure werr flushOk ts w i hi e hprev hfail]
    exact ⟨rfl, rfl, rfl, rfl, rfl⟩
  · intro hall
    rw [WriteBatch_all_success werr flushOk ts w hall]
    exact ⟨rfl, rfl, rfl, rfl⟩

/-- Witness for C6: a three-record batch whose second record's write fails —
the first record is written, the error surfaces, the third is never
attempted, and no flush occurs. -/
theorem C6_write_batch_first_failure_witness :
    (internal.TradeWriter.WriteBatch fixtures.werrW true
        internal.TradeWriter.NewTradeWriter
        [fixtures.tw, fixtures.twBad, fixtures.tw]).2 = some "write failed"
    ∧ ((internal.TradeWriter.WriteBatch fixtures.werrW true
        internal.TradeWriter.NewTradeWriter
        [fixtures.tw, fixtures.twBad, fixtures.tw]).1).buffer =
      internal.TradeWriter.NewTradeWriter.buffer ++
        (([fixtures.tw, fixtures.twBad, fixtures.tw].take 1).map internal.rowOf)
    ∧ ((internal.TradeWriter.WriteBatch fixtures.werrW true
        internal.TradeWriter.NewTradeWriter
        [fixtures.tw, fixtures.twBad, fixtures.tw]).1).accepted =
      internal.TradeWriter.NewTradeWriter.accepted ++
        (([fixtures.tw, fixtures.twBad, fixtures.tw].take 1).map internal.rowOf)
    ∧ ((internal.TradeWriter.WriteBatch fixtures.werrW true
        internal.TradeWriter.NewTradeWriter
        [fixtures.tw, fixtures.twBad, fixtures.tw]).1).attempted =
      internal.TradeWriter.NewTradeWriter.attempted ++
        (([fixtures.tw, fixtures.twBad, fixtures.tw].take 2).map internal.rowOf)
    ∧ ((internal.TradeWriter.WriteBatch fixtures.werrW true
        internal.TradeWriter.NewTradeWriter
        [fixtures.tw, fixtures.twBad, fixtures.tw]).1).flushLog =
      internal.TradeWriter.NewTradeWriter.flushLog :=
  (C6_write_batch_first_failure fixtures.werrW true
      internal.TradeWriter.NewTradeWriter
      [fixtures.tw, fixtures.twBad, fixtures.tw]).1 1 (by decide) "write failed"
    (fun j hj hj1 => by
      have hj0 : j = 0 := by omega
      subst hj0
      rfl)
    rfl
